import Mathlib

/-!
Verification of the C-header generator of the swift-bridge repository
(crates/swift-bridge-ir/src/codegen/generate_c_header.rs).

The generator walks an already-parsed bridge module and produces the text of a
C header: a notice line, include directives, synthesized slice wrapper
typedefs, struct typedefs, opaque-handle typedefs with destructor
declarations, and function declarations.

Modelling notes.
The two bookkeeping sets (`includes`, `slice_types`) are Rust `HashSet`s; we
model each as a duplicate-free list in insertion order, and we model the
unspecified `HashSet` iteration order used at emission time as an explicit
parameter `order : List String → List String`, whose legitimate
instantiations are exactly the permutation-producing functions (a hash set
enumerates each element exactly once, in an unspecified order).
The field-type lookup `BuiltInType::new_with_type(..).unwrap()` can panic;
panicking computations are modelled with `Option`, `none` being the panic.
-/

/-- Which language hosts a parsed type or function (`HostLang` in the source). -/
inductive HostLang where
  | rust
  | swift
deriving DecidableEq

/-- `HostLang::is_swift` from the source. -/
def HostLang.is_swift : HostLang → Bool
  | .swift => true
  | .rust => false

/-- Modelled from the spec: the Type Mapper's logical type descriptors
(`BuiltInType` lives outside src/). Fixed-width integer, float and bool
kinds, plus a one-level reference-to-slice over an element type. -/
inductive BuiltInType where
  | u8
  | i8
  | u16
  | i16
  | u32
  | i32
  | u64
  | i64
  | usize
  | isize
  | f32
  | f64
  | boolean
  | refSlice (ty : BuiltInType)
deriving DecidableEq

/-- Modelled from the spec: a parsed Rust type as it appears in the module
model (`syn::Type` in the source). Either a type the mapper knows, or an
unknown type with no registered mapping (spec section 4.1, Failure). -/
inductive RustType where
  | known (ty : BuiltInType)
  | unknown (name : String)
deriving DecidableEq

/-- Modelled from the spec: `BuiltInType::new_with_type` (outside src/), the
registered-mapping lookup; `none` models an unmapped type. -/
def BuiltInType.new_with_type : RustType → Option BuiltInType
  | .known ty => some ty
  | .unknown _ => none

/-- Modelled from the spec: `BuiltInType::to_c` (outside src/). Fixed-width
kinds map to their standard C representations; a reference-to-slice maps to a
pointer to the synthesized wrapper struct named from the element
representation (spec section 4.1). -/
def BuiltInType.to_c : BuiltInType → String
  | .u8 => "uint8_t"
  | .i8 => "int8_t"
  | .u16 => "uint16_t"
  | .i16 => "int16_t"
  | .u32 => "uint32_t"
  | .i32 => "int32_t"
  | .u64 => "uint64_t"
  | .i64 => "int64_t"
  | .usize => "uintptr_t"
  | .isize => "intptr_t"
  | .f32 => "float"
  | .f64 => "double"
  | .boolean => "bool"
  | .refSlice ty => "FfiSlice_" ++ ty.to_c ++ "*"

/-- Modelled from the spec: `BuiltInType::c_include` (outside src/). The
fixed-width integer kinds require the fixed-width-integer include
(spec section 4.1); a slice's include requirement is its element's. -/
def BuiltInType.c_include : BuiltInType → Option String
  | .u8 | .i8 | .u16 | .i16 | .u32 | .i32 | .u64 | .i64 | .usize | .isize =>
      some "stdint.h"
  | .f32 | .f64 | .boolean => none
  | .refSlice ty => ty.c_include

/-- A struct field from the module model (`name` may be absent). -/
structure StructField where
  name : Option String
  ty : RustType
deriving DecidableEq

/-- A shared value type (`SharedStruct` in the source); `swift_name` is the
result of `swift_name_string()`. -/
structure SharedStruct where
  swift_name : String
  fields : List StructField
deriving DecidableEq

/-- `SharedStruct::swift_name_string` from the source. -/
def SharedStruct.swift_name_string (s : SharedStruct) : String :=
  s.swift_name

/-- A bridged type: `BridgedType::Shared(SharedType::Struct ..)` or
`BridgedType::Opaque` with its identifier and host language. -/
inductive BridgedType where
  | shared (ty_struct : SharedStruct)
  | opaqueHandle (ident : String) (host_lang : HostLang)
deriving DecidableEq

/-- Modelled from the spec: a function receiver
(none / by value / by reference / by mutable reference, naming its entity). -/
inductive Receiver where
  | noneR
  | byValue (entity : String)
  | byRef (entity : String)
  | byMutRef (entity : String)
deriving DecidableEq

/-- The entity named by a receiver, if the function is a method. -/
def Receiver.entity_name : Receiver → Option String
  | .noneR => none
  | .byValue e => some e
  | .byRef e => some e
  | .byMutRef e => some e

/-- A parsed extern function (`ParsedExternFn` in the source): host language,
receiver, name, parameters in declared order, and optional return type. -/
structure ParsedExternFn where
  host_lang : HostLang
  receiver : Receiver
  fn_name : String
  params : List (String × RustType)
  ret : Option RustType
deriving DecidableEq

/-- Modelled from the spec: `ParsedExternFn::link_name` (outside src/).
Free functions use prefix-dollar-name, methods insert the entity name
(spec section 4.2); the prefix is the bridge-wide constant. -/
def ParsedExternFn.link_name (f : ParsedExternFn) : String :=
  match f.receiver.entity_name with
  | some e => "__swift_bridge__$" ++ e ++ "$" ++ f.fn_name
  | none => "__swift_bridge__$" ++ f.fn_name

/-- The C representation used for a parameter's type. -/
def paramCRepr : RustType → String
  | .known b => b.to_c
  | .unknown n => n

/-- Modelled from the spec: `ParsedExternFn::to_c_header_params`
(outside src/). Any receiver becomes one leading untyped self pointer;
parameters are comma-joined mapped-type/name pairs in declared order; an
empty list renders as the literal void (spec section 4.2). -/
def ParsedExternFn.to_c_header_params (f : ParsedExternFn) : String :=
  let selfParam : List String :=
    match f.receiver with
    | .noneR => []
    | _ => ["void* self"]
  let ps := selfParam ++ f.params.map (fun p => paramCRepr p.2 ++ " " ++ p.1)
  match ps with
  | [] => "void"
  | _ => String.intercalate ", " ps

/-- Modelled from the spec: `ParsedExternFn::to_c_header_return`
(outside src/). `void` when absent, otherwise the mapped representation; for
a reference-to-slice return the original behavior prints the fixed
placeholder name, as pinned by the `slice_return` test in src/ and flagged by
spec section 9. -/
def ParsedExternFn.to_c_header_return (f : ParsedExternFn) : String :=
  match f.ret with
  | none => "void"
  | some t =>
    match BuiltInType.new_with_type t with
    | some (.refSlice _) => "struct __private__FfiSlice"
    | some b => b.to_c
    | none => paramCRepr t

/-- The include requirement of a parsed type, used by `c_includes`. -/
def typeInclude : RustType → Option String
  | .known b => b.c_include
  | .unknown _ => none

/-- Modelled from the spec: `ParsedExternFn::c_includes` (outside src/),
the includes required by the function's parameter and return types. -/
def ParsedExternFn.c_includes (f : ParsedExternFn) : List String :=
  f.params.filterMap (fun p => typeInclude p.2) ++
    (match f.ret with
     | some t => (typeInclude t).toList
     | none => [])

/-- The parsed bridge module (`SwiftBridgeModule` in the source): bridged
types and extern functions, each in module declaration order. -/
structure SwiftBridgeModule where
  types : List BridgedType
  functions : List ParsedExternFn
deriving DecidableEq

/-- The notice line constant `NOTICE` from the source. -/
def NOTICE : String := "// File automatically generated by swift-bridge."

/-- The `Bookkeeping` struct from the source; both Rust `HashSet`s are
modelled as duplicate-free lists in insertion order. -/
structure Bookkeeping where
  includes : List String
  slice_types : List String
deriving DecidableEq

/-- Idempotent set insertion: models `HashSet::insert`. -/
def insertSet (x : String) (s : List String) : List String :=
  if x ∈ s then s else s ++ [x]

/-- `declare_func` from the source: builds one function declaration line and
records the slice-element representation of a reference-to-slice return type
plus the function's required includes into the bookkeeping. -/
def declare_func (func : ParsedExternFn) (bk : Bookkeeping) :
    String × Bookkeeping :=
  let ret := func.to_c_header_return
  let name := func.link_name
  let params := func.to_c_header_params
  let bk1 :=
    match func.ret with
    | some t =>
      match BuiltInType.new_with_type t with
      | some (.refSlice e) =>
          { bk with slice_types := insertSet e.to_c bk.slice_types }
      | _ => bk
    | none => bk
  let bk2 := func.c_includes.foldl
    (fun b i => { b with includes := insertSet i b.includes }) bk1
  (ret ++ " " ++ name ++ "(" ++ params ++ ");\n", bk2)

/-- The struct-field loop of `generate_c_header_inner`: maps each field type
(`unwrap` modelled as `Option`), records its include, and renders
`mapped_type field_name`, synthesizing an underscore-index name for an
unnamed field from its zero-based index among all fields. -/
def structFields :
    List StructField → Nat → Bookkeeping → Option (List String × Bookkeeping)
  | [], _, bk => some ([], bk)
  | field :: rest, idx, bk =>
    match BuiltInType.new_with_type field.ty with
    | none => none
    | some ty =>
      let bkA :=
        match ty.c_include with
        | some inc => { bk with includes := insertSet inc bk.includes }
        | none => bk
      let fname :=
        match field.name with
        | some n => n
        | none => "_" ++ toString idx
      match structFields rest (idx + 1) bkA with
      | none => none
      | some (fs, bkB) => some ((ty.to_c ++ " " ++ fname) :: fs, bkB)

/-- The struct typedef text from the source: brace body only when the field
list is nonempty, fields joined by semicolon-space with a trailing
semicolon. Braces are written with their character escapes. -/
def structDecl (name : String) (fields : List String) : String :=
  let maybe_fields :=
    if fields.length > 0 then
      " \x7b " ++ String.intercalate "; " fields ++ "; \x7d"
    else
      ""
  "typedef struct " ++ name ++ maybe_fields ++ " " ++ name ++ ";"

/-- One step of the type walk in `generate_c_header_inner`: emits a shared
struct typedef, or the opaque typedef plus destructor declaration for a
Rust-hosted opaque type, or nothing for a Swift-hosted opaque type. -/
def processType (t : BridgedType) (bk : Bookkeeping) :
    Option (String × Bookkeeping) :=
  match t with
  | .shared ty_struct =>
    match structFields ty_struct.fields 0 bk with
    | none => none
    | some (fs, bk1) =>
        some (structDecl ty_struct.swift_name_string fs ++ "\n", bk1)
  | .opaqueHandle ident hl =>
    if hl.is_swift then
      some ("", bk)
    else
      some ("typedef struct " ++ ident ++ " " ++ ident ++ ";" ++ "\n" ++
            ("void __swift_bridge__$" ++ ident ++ "$_free(void* self);" ++ "\n"),
        bk)

/-- The full type loop of `generate_c_header_inner`, in module order. -/
def walkTypes :
    List BridgedType → Bookkeeping → Option (String × Bookkeeping)
  | [], bk => some ("", bk)
  | t :: ts, bk =>
    match processType t bk with
    | none => none
    | some (s, bk1) =>
      match walkTypes ts bk1 with
      | none => none
      | some (rest, bk2) => some (s ++ rest, bk2)

/-- The function loop of `generate_c_header_inner`: Swift-hosted functions
are skipped entirely, others contribute a declaration via `declare_func`. -/
def walkFuncs :
    List ParsedExternFn → Bookkeeping → String × Bookkeeping
  | [], bk => ("", bk)
  | f :: fs, bk =>
    if f.host_lang.is_swift then
      walkFuncs fs bk
    else
      let p := declare_func f bk
      let q := walkFuncs fs p.2
      (p.1 ++ q.1, q.2)

/-- The declaration-walk phase of `generate_c_header_inner`: types then
functions, threading one bookkeeping instance, starting from empty sets. -/
def walkModule (m : SwiftBridgeModule) : Option (String × Bookkeeping) :=
  match walkTypes m.types ⟨[], []⟩ with
  | none => none
  | some (th, bk0) =>
    let fr := walkFuncs m.functions bk0
    some (th ++ fr.1, fr.2)

/-- The synthesized slice wrapper typedef line from the source (braces
written with their character escapes). -/
def sliceWrapperLine (slice_ty : String) : String :=
  "typedef struct FfiSlice_" ++ slice_ty ++ " \x7b " ++ slice_ty ++
    "* start; uintptr_t len; \x7d FfiSlice_" ++ slice_ty ++ ";"

/-- Strict lexicographic order on character lists (by code point), the
order Rust's byte-wise string comparison induces on ASCII data. -/
def charListLt : List Char → List Char → Bool
  | [], [] => false
  | [], _ :: _ => true
  | _ :: _, [] => false
  | a :: as, b :: bs => if a = b then charListLt as bs else decide (a < b)

/-- Strict lexicographic order on strings. -/
def strLt (a b : String) : Bool := charListLt a.data b.data

/-- Whether a list of strings is sorted ascending in the lexicographic
order (adjacent elements in order); the order the spec requires of the
emitted include and slice-wrapper sections. -/
def sortedAscB : List String → Bool
  | [] => true
  | [_] => true
  | a :: b :: rest => (strLt a b || a == b) && sortedAscB (b :: rest)

/-- Insertion into a list sorted ascending by `strLt`. -/
def insertSorted (x : String) : List String → List String
  | [] => [x]
  | y :: ys => if strLt x y then x :: y :: ys else y :: insertSorted x ys

/-- Insertion sort on strings: models Rust `Vec::sort` on the collected
include tokens (the elements are distinct, so any comparison sort agrees). -/
def sortStrings : List String → List String
  | [] => []
  | x :: xs => insertSorted x (sortStrings xs)

/-- `generate_c_header_inner` from the source: walk the module, then prepend
one wrapper typedef per recorded slice element in hash-iteration order
(`order`), then prepend one include line per recorded include in sorted
collection order. `none` models the panic of the field-type `unwrap`. -/
def generate_c_header_inner (order : List String → List String)
    (m : SwiftBridgeModule) : Option String :=
  match walkModule m with
  | none => none
  | some (header0, bk) =>
    let header1 := (order bk.slice_types).foldl
      (fun h s => sliceWrapperLine s ++ "\n" ++ h) header0
    let header2 := (sortStrings bk.includes).foldl
      (fun h i => "#include <" ++ i ++ ">\n" ++ h) header1
    some header2

/-- `generate_c_header` from the source: the notice line, a newline, then
the inner header text. -/
def generate_c_header (order : List String → List String)
    (m : SwiftBridgeModule) : Option String :=
  (generate_c_header_inner order m).map (fun h => NOTICE ++ "\n" ++ h)

/-! ### Concrete modules used as inputs -/

/-- A native free function returning a reference slice of unsigned bytes
(as in the `slice_return` test of the source). -/
def fooSliceFn : ParsedExternFn :=
  { host_lang := .rust, receiver := .noneR, fn_name := "foo",
    params := [], ret := some (.known (.refSlice .u8)) }

/-- A native free function returning a reference slice of 16-bit unsigned
elements. -/
def barSliceFn : ParsedExternFn :=
  { host_lang := .rust, receiver := .noneR, fn_name := "bar",
    params := [], ret := some (.known (.refSlice .u16)) }

/-- A module with one slice-returning function. -/
def fooSliceModule : SwiftBridgeModule := ⟨[], [fooSliceFn]⟩

/-- A module whose generation records two distinct slice element
representations, inserted in the order uint8_t then uint16_t. -/
def twoSliceModule : SwiftBridgeModule := ⟨[], [fooSliceFn, barSliceFn]⟩

/-- A native function taking a reference-slice parameter and returning
nothing. -/
def sliceParamFn : ParsedExternFn :=
  { host_lang := .rust, receiver := .noneR, fn_name := "takes_slice",
    params := [("a", .known (.refSlice .u8))], ret := none }

/-- The module containing only `sliceParamFn`. -/
def sliceParamModule : SwiftBridgeModule := ⟨[], [sliceParamFn]⟩

/-! ### Helper lemmas -/

/-- The includes-recording fold of `declare_func` never touches the slice
set. -/
theorem foldl_includes_slice_types (l : List String) (bk : Bookkeeping) :
    (l.foldl (fun b i => { b with includes := insertSet i b.includes })
        bk).slice_types = bk.slice_types := by
  induction l generalizing bk with
  | nil => rfl
  | cons a l ih => exact ih _

/-- An inserted element is a member of the resulting set. -/
theorem mem_insertSet_self (x : String) (s : List String) :
    x ∈ insertSet x s := by
  by_cases h : x ∈ s <;> simp [insertSet, h]

/-- The fixed placeholder return name never coincides with a synthesized
wrapper name, whatever the element representation. -/
theorem placeholder_ne_wrapper (s : String) :
    "struct __private__FfiSlice" ≠ "FfiSlice_" ++ s := by
  intro hEq
  have h1 : ("struct __private__FfiSlice" : String).data.head? =
      (("FfiSlice_" : String) ++ s).data.head? := by rw [hEq]
  rw [String.data_append] at h1
  have h3 : ("FfiSlice_" : String).data = 'F' :: ("fiSlice_" : String).data := by
    decide
  rw [h3] at h1
  have h2 : (('F' :: ("fiSlice_" : String).data) ++ s.data).head? = some 'F' :=
    rfl
  rw [h2] at h1
  have h4 : ("struct __private__FfiSlice" : String).data.head? = some 's' := by
    decide
  rw [h4] at h1
  exact absurd (Option.some.inj h1) (by decide)

/-! ### Claims -/

set_option maxRecDepth 100000 in
/-- Claim C1: the spec states that in the assembled header the include
directives and the synthesized slice wrapper typedefs both appear sorted
lexicographically.  The code sorts only the includes: the slice set is a
`HashSet` iterated in unspecified order, each element prepended.  With the
legitimate enumeration that reverses insertion order, the module recording
the two element representations uint8_t and uint16_t emits the
FfiSlice_uint8_t typedef line before the FfiSlice_uint16_t line, and that
two-line sequence is not sorted ascending. -/
theorem c1_slice_typedefs_unsorted :
    (walkModule twoSliceModule).map (fun p => p.2.slice_types) =
      some ["uint8_t", "uint16_t"] ∧
    (List.reverse ["uint8_t", "uint16_t"]).Perm ["uint8_t", "uint16_t"] ∧
    generate_c_header List.reverse twoSliceModule =
      some (NOTICE ++ "\n" ++ "#include <stdint.h>\n" ++
        (sliceWrapperLine "uint8_t" ++ "\n") ++ (sliceWrapperLine "uint16_t" ++ "\n") ++
        ("struct __private__FfiSlice __swift_bridge__$foo(void);\n" ++
         "struct __private__FfiSlice __swift_bridge__$bar(void);\n")) ∧
    sortedAscB [sliceWrapperLine "uint8_t", sliceWrapperLine "uint16_t"] = false :=
  ⟨by decide, by decide, by decide, by decide⟩

set_option maxRecDepth 100000 in
/-- Claim C2: the spec states that header generation is deterministic,
independent of hash-set iteration order.  The slice wrapper section is
emitted in `HashSet` iteration order, so two invocations that enumerate the
same two-element slice set in different orders (both legitimate) produce
different bytes. -/
theorem c2_output_depends_on_iteration_order :
    (List.reverse ["uint8_t", "uint16_t"]).Perm ["uint8_t", "uint16_t"] ∧
    generate_c_header id twoSliceModule ≠
      generate_c_header List.reverse twoSliceModule :=
  ⟨by decide, by decide⟩

set_option maxRecDepth 100000 in
/-- Claim C3, counterexample: for a function returning a reference slice of
bytes, the declaration prints the fixed placeholder return name
`struct __private__FfiSlice`, while the wrapper typedef the bookkeeping
emits is named `FfiSlice_uint8_t`; the two paths produce different names. -/
theorem c3_return_name_mismatch :
    generate_c_header id fooSliceModule =
      some (NOTICE ++ "\n" ++ "#include <stdint.h>\n" ++
        sliceWrapperLine "uint8_t" ++ "\n" ++
        "struct __private__FfiSlice __swift_bridge__$foo(void);\n") ∧
    fooSliceFn.to_c_header_return ≠ "FfiSlice_" ++ BuiltInType.u8.to_c :=
  ⟨by decide, by decide⟩

/-- Claim C3, amended: for every function whose return type is a
reference-to-slice of element e, the declaration's return representation is
the fixed placeholder `struct __private__FfiSlice`, the bookkeeping records
e's representation (from which the wrapper typedef `FfiSlice_<e repr>` is
synthesized), and the placeholder never equals the wrapper name: the two
paths always use different naming conventions. -/
theorem c3_placeholder_return (f : ParsedExternFn) (e : BuiltInType)
    (bk : Bookkeeping) (h : f.ret = some (.known (.refSlice e))) :
    f.to_c_header_return = "struct __private__FfiSlice" ∧
    e.to_c ∈ (declare_func f bk).2.slice_types ∧
    f.to_c_header_return ≠ "FfiSlice_" ++ e.to_c := by
  have hret : f.to_c_header_return = "struct __private__FfiSlice" := by
    simp [ParsedExternFn.to_c_header_return, h, BuiltInType.new_with_type]
  refine ⟨hret, ?_, ?_⟩
  · simp only [declare_func, h, BuiltInType.new_with_type]
    rw [foldl_includes_slice_types]
    exact mem_insertSet_self _ _
  · rw [hret]
    exact placeholder_ne_wrapper _

/-- Witness for the amended claim C3, at the byte-slice-returning
function. -/
theorem c3_placeholder_return_witness :
    fooSliceFn.ret = some (.known (.refSlice .u8)) ∧
    (fooSliceFn.to_c_header_return = "struct __private__FfiSlice" ∧
     BuiltInType.u8.to_c ∈
       (declare_func fooSliceFn ⟨[], []⟩).2.slice_types ∧
     fooSliceFn.to_c_header_return ≠ "FfiSlice_" ++ BuiltInType.u8.to_c) :=
  ⟨rfl, c3_placeholder_return fooSliceFn .u8 ⟨[], []⟩ rfl⟩

set_option maxRecDepth 100000 in
/-- Claim C5, counterexample: a native function with a reference-slice
parameter and no return type records nothing in the slice set, and the
generated header contains no wrapper typedef, even though the parameter was
mapped to the wrapper-pointer representation during emission. -/
theorem c5_param_slice_unrecorded :
    (walkModule sliceParamModule).map (fun p => p.2.slice_types) = some [] ∧
    generate_c_header id sliceParamModule =
      some (NOTICE ++ "\n" ++ "#include <stdint.h>\n" ++
        "void __swift_bridge__$takes_slice(FfiSlice_uint8_t* a);\n") :=
  ⟨by decide, by decide⟩

/-- Whether the declared return type is a mapped reference-to-slice. -/
def retIsRefSlice (f : ParsedExternFn) : Bool :=
  match f.ret with
  | some (.known (.refSlice _)) => true
  | _ => false

/-- Claim C5, amended: the slice set is updated only for a
reference-to-slice in return position.  A function whose return type is not
a mapped reference-to-slice, whatever slice types occur among its
parameters, leaves the slice set unchanged; a reference-to-slice return of
element e records exactly e's representation. -/
theorem c5_slice_set_return_only :
    (∀ f : ParsedExternFn, ∀ bk : Bookkeeping, retIsRefSlice f = false →
      (declare_func f bk).2.slice_types = bk.slice_types) ∧
    (∀ f : ParsedExternFn, ∀ bk : Bookkeeping, ∀ e : BuiltInType,
      f.ret = some (.known (.refSlice e)) →
      (declare_func f bk).2.slice_types = insertSet e.to_c bk.slice_types) := by
  constructor
  · intro f bk h
    simp only [declare_func]
    rw [foldl_includes_slice_types]
    unfold retIsRefSlice at h
    cases hr : f.ret with
    | none => simp [hr]
    | some t =>
      rw [hr] at h
      cases t with
      | unknown n => simp [BuiltInType.new_with_type]
      | known b => cases b <;> simp_all [BuiltInType.new_with_type]
  · intro f bk e h
    simp only [declare_func, h, BuiltInType.new_with_type]
    rw [foldl_includes_slice_types]

/-- Witness for the amended claim C5, at the slice-parameter function. -/
theorem c5_slice_set_return_only_witness :
    retIsRefSlice sliceParamFn = false ∧
    (declare_func sliceParamFn ⟨[], []⟩).2.slice_types =
      (⟨[], []⟩ : Bookkeeping).slice_types :=
  ⟨by decide, c5_slice_set_return_only.1 sliceParamFn ⟨[], []⟩ (by decide)⟩

/-- Claim C7: a native-owned opaque handle type emits exactly the opaque
typedef line followed by the destructor declaration line, with the fixed
bridge prefix and dollar separators; a foreign-owned opaque handle type
emits nothing.  The bookkeeping is untouched in both cases. -/
theorem c7_opaque_handle_emission (name : String) (bk : Bookkeeping) :
    processType (.opaqueHandle name .rust) bk =
      some (("typedef struct " ++ name ++ " " ++ name ++ ";") ++ "\n" ++
        (("void __swift_bridge__$" ++ name ++ "$_free(void* self);") ++ "\n"),
        bk) ∧
    processType (.opaqueHandle name .swift) bk = some ("", bk) :=
  ⟨rfl, rfl⟩

/-- Whether a bridged type is a foreign-owned (Swift-hosted) opaque type. -/
def BridgedType.isForeignOpaque : BridgedType → Bool
  | .opaqueHandle _ .swift => true
  | _ => false

/-- A type list made only of foreign-owned opaque types walks to the empty
string and leaves the bookkeeping untouched. -/
theorem walkTypes_foreign (ts : List BridgedType) (bk : Bookkeeping)
    (h : ∀ t ∈ ts, t.isForeignOpaque = true) :
    walkTypes ts bk = some ("", bk) := by
  induction ts with
  | nil => rfl
  | cons t ts ih =>
    have ht := h t (List.mem_cons_self _ _)
    have hrest := ih (fun x hx => h x (List.mem_cons_of_mem _ hx))
    match t with
    | .shared s => simp [BridgedType.isForeignOpaque] at ht
    | .opaqueHandle i .rust => simp [BridgedType.isForeignOpaque] at ht
    | .opaqueHandle i .swift =>
      simp [walkTypes, processType, HostLang.is_swift, hrest,
        String.empty_append]

/-- A function list made only of Swift-hosted functions walks to the empty
string and leaves the bookkeeping untouched. -/
theorem walkFuncs_swift (fs : List ParsedExternFn) (bk : Bookkeeping)
    (h : ∀ f ∈ fs, f.host_lang.is_swift = true) :
    walkFuncs fs bk = ("", bk) := by
  induction fs with
  | nil => rfl
  | cons f fs ih =>
    have hf := h f (List.mem_cons_self _ _)
    have hrest := ih (fun x hx => h x (List.mem_cons_of_mem _ hx))
    simp [walkFuncs, hf, hrest]

/-- Claim C4: for a module none of whose entities or functions are
native-owned — every entity a foreign-owned (Swift-hosted) opaque type and
every function Swift-hosted, the empty module included — the generated
header is exactly the notice line (terminated by the newline the format
string inserts), under any legitimate hash-set enumeration order. -/
theorem c4_foreign_only_notice (order : List String → List String)
    (m : SwiftBridgeModule)
    (hord : ∀ l, (order l).Perm l)
    (hty : ∀ t ∈ m.types, t.isForeignOpaque = true)
    (hfn : ∀ f ∈ m.functions, f.host_lang.is_swift = true) :
    generate_c_header order m = some (NOTICE ++ "\n") := by
  have h1 := walkTypes_foreign m.types ⟨[], []⟩ hty
  have h2 := walkFuncs_swift m.functions ⟨[], []⟩ hfn
  have hnil : order [] = [] := List.Perm.eq_nil (hord [])
  simp [generate_c_header, generate_c_header_inner, walkModule, h1, h2, hnil,
    sortStrings, String.empty_append, String.append_empty]

/-- A module with one Swift-hosted opaque type and one Swift-hosted
function. -/
def foreignOnlyModule : SwiftBridgeModule :=
  ⟨[.opaqueHandle "Foo" .swift],
   [{ host_lang := .swift, receiver := .noneR, fn_name := "bar",
      params := [], ret := none }]⟩

/-- Witness for claim C4, at a module holding one foreign-owned opaque type
and one Swift-hosted function, with the identity enumeration. -/
theorem c4_foreign_only_notice_witness :
    generate_c_header id foreignOnlyModule = some (NOTICE ++ "\n") :=
  c4_foreign_only_notice id foreignOnlyModule (fun l => List.Perm.refl l)
    (by decide) (by decide)

/-- Whether every field type of a bridged type has a registered mapping. -/
def BridgedType.fieldsMapped : BridgedType → Bool
  | .shared s => s.fields.all (fun f => (BuiltInType.new_with_type f.ty).isSome)
  | .opaqueHandle _ _ => true

/-- The field loop cannot fail when every field type has a registered
mapping. -/
theorem structFields_total (fs : List StructField) (idx : Nat)
    (bk : Bookkeeping)
    (h : ∀ f ∈ fs, (BuiltInType.new_with_type f.ty).isSome = true) :
    (structFields fs idx bk).isSome = true := by
  induction fs generalizing idx bk with
  | nil => rfl
  | cons f fs ih =>
    have hf := h f (List.mem_cons_self _ _)
    cases hb : BuiltInType.new_with_type f.ty with
    | none => rw [hb] at hf; simp at hf
    | some b =>
      obtain ⟨⟨ps, pbk⟩, hp⟩ := Option.isSome_iff_exists.mp
        (ih (idx + 1)
          (match b.c_include with
           | some inc => { bk with includes := insertSet inc bk.includes }
           | none => bk)
          (fun x hx => h x (List.mem_cons_of_mem _ hx)))
      simp [structFields, hb, hp]

/-- The type walk cannot fail when every struct field type in the list has a
registered mapping. -/
theorem walkTypes_total (ts : List BridgedType) (bk : Bookkeeping)
    (h : ∀ t ∈ ts, t.fieldsMapped = true) :
    (walkTypes ts bk).isSome = true := by
  induction ts generalizing bk with
  | nil => rfl
  | cons t ts ih =>
    have ht := h t (List.mem_cons_self _ _)
    have hrest := fun bk1 => ih bk1 (fun x hx => h x (List.mem_cons_of_mem _ hx))
    cases t with
    | shared s =>
      have hfields : ∀ f ∈ s.fields,
          (BuiltInType.new_with_type f.ty).isSome = true := by
        simpa [BridgedType.fieldsMapped, List.all_eq_true] using ht
      obtain ⟨⟨ps, pbk⟩, hsf2⟩ := Option.isSome_iff_exists.mp
        (structFields_total s.fields 0 bk hfields)
      obtain ⟨⟨qs, qbk⟩, hw⟩ := Option.isSome_iff_exists.mp (hrest pbk)
      simp [walkTypes, processType, hsf2, hw]
    | opaqueHandle i hl =>
      obtain ⟨⟨qs, qbk⟩, hw⟩ := Option.isSome_iff_exists.mp (hrest bk)
      cases hl <;> simp [walkTypes, processType, HostLang.is_swift, hw]

/-- A module whose single struct has a field of unmapped type. -/
def badFieldModule : SwiftBridgeModule :=
  ⟨[.shared ⟨"Foo", [⟨some "x", .unknown "MysteryType"⟩]⟩], []⟩

/-- Claim C10: when every struct field type in the module has a registered
built-in mapping, header generation never aborts (the field-lookup failure
branch is unreachable and a header is produced); and a field whose type has
no registered mapping makes the generation call panic (modelled as `none`)
instead of returning a header. -/
theorem c10_field_mapping_totality :
    (∀ (order : List String → List String) (m : SwiftBridgeModule),
      (∀ t ∈ m.types, t.fieldsMapped = true) →
      (generate_c_header order m).isSome = true) ∧
    generate_c_header id badFieldModule = none := by
  constructor
  · intro order m h
    have hw := walkTypes_total m.types ⟨[], []⟩ h
    cases hw2 : walkTypes m.types ⟨[], []⟩ with
    | none => rw [hw2] at hw; simp at hw
    | some p =>
      simp [generate_c_header, generate_c_header_inner, walkModule, hw2]
  · rfl

/-- A module whose single struct has one mapped field. -/
def goodFieldModule : SwiftBridgeModule :=
  ⟨[.shared ⟨"Foo", [⟨some "x", .known .u8⟩]⟩], []⟩

/-- Witness for claim C10, at a module whose struct fields are all mapped. -/
theorem c10_field_mapping_totality_witness :
    (generate_c_header id goodFieldModule).isSome = true :=
  c10_field_mapping_totality.1 id goodFieldModule (by decide)

/-- The field name the claim prescribes: the declared name, or the
synthesized underscore-index name from the field's zero-based position
among all fields of the type. -/
def specFieldName (idx : Nat) (f : StructField) : String :=
  match f.name with
  | some n => n
  | none => "_" ++ toString idx

/-- The field declaration the claim prescribes, mapped type then name
(the empty representation stands for the unmapped case, which aborts
generation before any text is produced). -/
def specFieldDecl (idx : Nat) (f : StructField) : String :=
  (match BuiltInType.new_with_type f.ty with
   | some b => b.to_c
   | none => "") ++ " " ++ specFieldName idx f

/-- The struct typedef the claim prescribes: no brace body for zero fields,
otherwise the field declarations joined by semicolon-space with a trailing
semicolon, in declared order, indices taken over all fields. -/
def specStructText (s : SharedStruct) : String :=
  if s.fields.length > 0 then
    "typedef struct " ++ s.swift_name ++ " \x7b " ++
      String.intercalate "; "
        ((List.enumFrom 0 s.fields).map (fun p => specFieldDecl p.1 p.2)) ++
      "; \x7d " ++ s.swift_name ++ ";"
  else
    "typedef struct " ++ s.swift_name ++ " " ++ s.swift_name ++ ";"

/-- The field loop renders, in order, exactly the per-field declarations the
claim prescribes, indexed from its starting offset. -/
theorem structFields_fst (fields : List StructField) (idx : Nat)
    (bk : Bookkeeping)
    (h : ∀ f ∈ fields, (BuiltInType.new_with_type f.ty).isSome = true) :
    ∃ bk', structFields fields idx bk =
      some ((List.enumFrom idx fields).map (fun p => specFieldDecl p.1 p.2),
        bk') := by
  induction fields generalizing idx bk with
  | nil => exact ⟨bk, rfl⟩
  | cons f fs ih =>
    have hf := h f (List.mem_cons_self _ _)
    cases hb : BuiltInType.new_with_type f.ty with
    | none => rw [hb] at hf; simp at hf
    | some b =>
      obtain ⟨bk', hrec⟩ := ih (idx + 1)
        (match b.c_include with
         | some inc => { bk with includes := insertSet inc bk.includes }
         | none => bk)
        (fun x hx => h x (List.mem_cons_of_mem _ hx))
      refine ⟨bk', ?_⟩
      simp [structFields, hb, hrec, specFieldDecl, specFieldName,
        List.enumFrom]

/-- Claim C6: for every value-type (struct) entity whose field types are all
mapped, emission produces exactly the typedef the claim prescribes: no brace
body when the field list is empty, otherwise the field declarations
`mapped_type name` joined by semicolon-space in declared order, an unnamed
field receiving the underscore-index name from its zero-based position among
all fields. -/
theorem c6_struct_typedef_format (s : SharedStruct) (bk : Bookkeeping)
    (h : ∀ f ∈ s.fields, (BuiltInType.new_with_type f.ty).isSome = true) :
    Option.map (fun p => p.1) (processType (.shared s) bk) =
      some (specStructText s ++ "\n") := by
  obtain ⟨bk', hsf⟩ := structFields_fst s.fields 0 bk h
  simp only [processType, hsf, Option.map_some']
  cases hfs : s.fields with
  | nil =>
    simp [structDecl, specStructText, hfs, SharedStruct.swift_name_string,
      List.enumFrom]
  | cons f fs =>
    simp [structDecl, specStructText, hfs, SharedStruct.swift_name_string,
      List.enumFrom, String.append_assoc]

/-- A struct with one named and one unnamed field, both mapped. -/
def witnessStruct : SharedStruct :=
  ⟨"Foo", [⟨some "field1", .known .u8⟩, ⟨none, .known .u16⟩]⟩

/-- Witness for claim C6, at a two-field struct with an unnamed second
field. -/
theorem c6_struct_typedef_format_witness :
    Option.map (fun p => p.1) (processType (.shared witnessStruct) ⟨[], []⟩) =
      some (specStructText witnessStruct ++ "\n") :=
  c6_struct_typedef_format witnessStruct ⟨[], []⟩ (by decide)

/-- Inserting an already-present element is a no-op. -/
theorem insertSet_idem (x : String) (s : List String) :
    insertSet x (insertSet x s) = insertSet x s := by
  have hm : x ∈ insertSet x s := mem_insertSet_self x s
  show (if x ∈ insertSet x s then insertSet x s else insertSet x s ++ [x]) =
    insertSet x s
  rw [if_pos hm]

/-- Idempotent insertion preserves freedom from duplicates. -/
theorem insertSet_nodup (x : String) (s : List String) (h : s.Nodup) :
    (insertSet x s).Nodup := by
  by_cases hm : x ∈ s
  · simpa [insertSet, hm] using h
  · simpa [insertSet, hm, List.nodup_append] using h

/-- The includes-recording fold preserves freedom from duplicates. -/
theorem foldl_insert_includes_nodup (l : List String) (bk : Bookkeeping)
    (h : bk.includes.Nodup) :
    ((l.foldl (fun b i => { b with includes := insertSet i b.includes })
        bk).includes).Nodup := by
  induction l generalizing bk with
  | nil => exact h
  | cons a l ih => exact ih _ (insertSet_nodup _ _ h)

/-- `declare_func` keeps both bookkeeping sets free of duplicates. -/
theorem declare_func_preserves_nodup (f : ParsedExternFn) (bk : Bookkeeping)
    (h1 : bk.includes.Nodup) (h2 : bk.slice_types.Nodup) :
    (declare_func f bk).2.includes.Nodup ∧
      (declare_func f bk).2.slice_types.Nodup := by
  have key : ∀ bk1 : Bookkeeping, bk1.includes.Nodup → bk1.slice_types.Nodup →
      ((f.c_includes.foldl
          (fun b i => { b with includes := insertSet i b.includes })
          bk1).includes.Nodup ∧
        (f.c_includes.foldl
          (fun b i => { b with includes := insertSet i b.includes })
          bk1).slice_types.Nodup) := by
    intro bk1 k1 k2
    refine ⟨foldl_insert_includes_nodup _ _ k1, ?_⟩
    rw [foldl_includes_slice_types]
    exact k2
  cases hr : f.ret with
  | none =>
    simp only [declare_func, hr]
    exact key bk h1 h2
  | some t =>
    cases t with
    | unknown n =>
      simp only [declare_func, hr, BuiltInType.new_with_type]
      exact key bk h1 h2
    | known b =>
      cases b <;> simp only [declare_func, hr, BuiltInType.new_with_type] <;>
        first
          | exact key bk h1 h2
          | exact key _ h1 (insertSet_nodup _ _ h2)

/-- The field loop keeps both bookkeeping sets free of duplicates. -/
theorem structFields_preserves_nodup (fields : List StructField) (idx : Nat)
    (bk : Bookkeeping) (fs : List String) (bk' : Bookkeeping)
    (h : structFields fields idx bk = some (fs, bk'))
    (h1 : bk.includes.Nodup) (h2 : bk.slice_types.Nodup) :
    bk'.includes.Nodup ∧ bk'.slice_types.Nodup := by
  induction fields generalizing idx bk fs bk' with
  | nil =>
    simp only [structFields, Option.some.injEq, Prod.mk.injEq] at h
    rw [← h.2]
    exact ⟨h1, h2⟩
  | cons f fields ih =>
    cases hb : BuiltInType.new_with_type f.ty with
    | none => simp [structFields, hb] at h
    | some b =>
      simp only [structFields, hb] at h
      cases hrec : structFields fields (idx + 1)
          (match b.c_include with
           | some inc => { bk with includes := insertSet inc bk.includes }
           | none => bk) with
      | none => rw [hrec] at h; simp at h
      | some p =>
        obtain ⟨pfs, pbk⟩ := p
        rw [hrec] at h
        simp only [Option.some.injEq, Prod.mk.injEq] at h
        rw [← h.2]
        cases hc : b.c_include with
        | none =>
          rw [hc] at hrec
          exact ih (idx + 1) bk pfs pbk hrec h1 h2
        | some inc =>
          rw [hc] at hrec
          exact ih (idx + 1) _ pfs pbk hrec (insertSet_nodup _ _ h1) h2

/-- One step of the type walk keeps both bookkeeping sets free of
duplicates. -/
theorem processType_preserves_nodup (t : BridgedType) (bk : Bookkeeping)
    (s : String) (bk' : Bookkeeping)
    (h : processType t bk = some (s, bk'))
    (h1 : bk.includes.Nodup) (h2 : bk.slice_types.Nodup) :
    bk'.includes.Nodup ∧ bk'.slice_types.Nodup := by
  cases t with
  | shared st =>
    cases hsf : structFields st.fields 0 bk with
    | none => simp [processType, hsf] at h
    | some p =>
      simp only [processType, hsf, Option.some.injEq, Prod.mk.injEq] at h
      rw [← h.2]
      exact structFields_preserves_nodup st.fields 0 bk p.1 p.2 hsf h1 h2
  | opaqueHandle i hl =>
    cases hl <;> simp [processType, HostLang.is_swift] at h <;>
      rcases h with ⟨h3, rfl⟩ <;> exact ⟨h1, h2⟩

/-- The type walk keeps both bookkeeping sets free of duplicates. -/
theorem walkTypes_preserves_nodup (ts : List BridgedType) (bk : Bookkeeping)
    (s : String) (bk' : Bookkeeping)
    (h : walkTypes ts bk = some (s, bk'))
    (h1 : bk.includes.Nodup) (h2 : bk.slice_types.Nodup) :
    bk'.includes.Nodup ∧ bk'.slice_types.Nodup := by
  induction ts generalizing bk s bk' with
  | nil =>
    simp only [walkTypes, Option.some.injEq, Prod.mk.injEq] at h
    rw [← h.2]
    exact ⟨h1, h2⟩
  | cons t ts ih =>
    cases hp : processType t bk with
    | none => simp [walkTypes, hp] at h
    | some p =>
      simp only [walkTypes, hp] at h
      cases hw : walkTypes ts p.2 with
      | none => rw [hw] at h; simp at h
      | some q =>
        obtain ⟨qs, qbk⟩ := q
        rw [hw] at h
        simp only [Option.some.injEq, Prod.mk.injEq] at h
        have hnods := processType_preserves_nodup t bk p.1 p.2 hp h1 h2
        rw [← h.2]
        exact ih p.2 qs qbk hw hnods.1 hnods.2

/-- The function walk keeps both bookkeeping sets free of duplicates. -/
theorem walkFuncs_preserves_nodup (fs : List ParsedExternFn)
    (bk : Bookkeeping)
    (h1 : bk.includes.Nodup) (h2 : bk.slice_types.Nodup) :
    (walkFuncs fs bk).2.includes.Nodup ∧
      (walkFuncs fs bk).2.slice_types.Nodup := by
  induction fs generalizing bk with
  | nil => exact ⟨h1, h2⟩
  | cons f fs ih =>
    cases hsw : f.host_lang.is_swift with
    | true =>
      simp only [walkFuncs, hsw, if_true]
      exact ih bk h1 h2
    | false =>
      have hd := declare_func_preserves_nodup f bk h1 h2
      simp only [walkFuncs, hsw, Bool.false_eq_true, if_false]
      exact ih _ hd.1 hd.2

/-- The whole declaration walk produces duplicate-free bookkeeping sets. -/
theorem walkModule_preserves_nodup (m : SwiftBridgeModule) (out : String)
    (bk : Bookkeeping) (h : walkModule m = some (out, bk)) :
    bk.includes.Nodup ∧ bk.slice_types.Nodup := by
  cases hw : walkTypes m.types ⟨[], []⟩ with
  | none => simp [walkModule, hw] at h
  | some p =>
    simp only [walkModule, hw, Option.some.injEq, Prod.mk.injEq] at h
    have hty := walkTypes_preserves_nodup m.types ⟨[], []⟩ p.1 p.2 hw
      List.nodup_nil List.nodup_nil
    have hfn := walkFuncs_preserves_nodup m.functions p.2 hty.1 hty.2
    rw [← h.2]
    exact hfn

/-- Sorted insertion permutes pushing the element on the front. -/
theorem insertSorted_perm (x : String) (l : List String) :
    (insertSorted x l).Perm (x :: l) := by
  induction l with
  | nil => exact List.Perm.refl _
  | cons y ys ih =>
    cases hxy : strLt x y with
    | true =>
      simp only [insertSorted, hxy, if_true]
      exact List.Perm.refl _
    | false =>
      simp only [insertSorted, hxy, Bool.false_eq_true, if_false]
      exact (ih.cons y).trans (List.Perm.swap x y ys)

/-- Insertion sort permutes its input. -/
theorem sortStrings_perm (l : List String) : (sortStrings l).Perm l := by
  induction l with
  | nil => exact List.Perm.refl _
  | cons x xs ih => exact (insertSorted_perm x (sortStrings xs)).trans (ih.cons x)

/-- Claim C8: duplicate insertion into either bookkeeping set is a no-op,
and after any walk the recorded sets are duplicate-free, so each distinct
include token occurs exactly once in the emitted (sorted) include sequence
and each distinct slice element representation occurs exactly once in the
emitted wrapper-typedef sequence, under any legitimate enumeration order. -/
theorem c8_dedup_invariant :
    (∀ (x : String) (s : List String),
      insertSet x (insertSet x s) = insertSet x s) ∧
    (∀ (m : SwiftBridgeModule) (out : String) (bk : Bookkeeping),
      walkModule m = some (out, bk) →
      (∀ t ∈ bk.includes, (sortStrings bk.includes).count t = 1) ∧
      (∀ order : List String → List String, (∀ l, (order l).Perm l) →
        ∀ t ∈ bk.slice_types, (order bk.slice_types).count t = 1)) := by
  refine ⟨insertSet_idem, ?_⟩
  intro m out bk h
  obtain ⟨hinc, hsli⟩ := walkModule_preserves_nodup m out bk h
  constructor
  · intro t ht
    rw [(sortStrings_perm bk.includes).count_eq]
    exact List.count_eq_one_of_mem hinc ht
  · intro order hord t ht
    rw [(hord bk.slice_types).count_eq]
    exact List.count_eq_one_of_mem hsli ht

/-- The declaration text the walk of `twoSliceModule` produces. -/
def twoSliceWalkText : String :=
  "struct __private__FfiSlice __swift_bridge__$foo(void);\n" ++
    "struct __private__FfiSlice __swift_bridge__$bar(void);\n"

/-- Witness for claim C8, at the module recording one include token (twice)
and two slice element representations. -/
theorem c8_dedup_invariant_witness :
    insertSet "stdint.h" (insertSet "stdint.h" []) = insertSet "stdint.h" [] ∧
    (sortStrings ["stdint.h"]).count "stdint.h" = 1 ∧
    (id ["uint8_t", "uint16_t"]).count "uint8_t" = 1 :=
  ⟨c8_dedup_invariant.1 "stdint.h" [],
   (c8_dedup_invariant.2 twoSliceModule twoSliceWalkText
      ⟨["stdint.h"], ["uint8_t", "uint16_t"]⟩ (by decide)).1 "stdint.h"
     (by decide),
   (c8_dedup_invariant.2 twoSliceModule twoSliceWalkText
      ⟨["stdint.h"], ["uint8_t", "uint16_t"]⟩ (by decide)).2 id
     (fun l => List.Perm.refl l) "uint8_t" (by decide)⟩

/-- Concatenation of a list of strings. -/
def joinAll (l : List String) : String := l.foldr (fun a b => a ++ b) ""

/-- `joinAll` distributes over list append. -/
theorem joinAll_append (xs ys : List String) :
    joinAll (xs ++ ys) = joinAll xs ++ joinAll ys := by
  induction xs with
  | nil => simp [joinAll, String.empty_append]
  | cons a xs ih =>
    simp only [List.cons_append, joinAll, List.foldr_cons] at *
    rw [ih, String.append_assoc]

/-- A left fold that prepends one rendered line per element equals the
concatenation of the rendered lines of the reversed list, in front of the
start text: the loop shape both prepend loops of the assembler use. -/
theorem foldl_prepend_eq (g : String → String) (l : List String)
    (h : String) :
    l.foldl (fun acc s => g s ++ acc) h = joinAll (l.reverse.map g) ++ h := by
  induction l generalizing h with
  | nil => simp [joinAll, String.empty_append]
  | cons a l ih =>
    simp only [List.foldl_cons, ih, List.reverse_cons, List.map_append,
      List.map_cons, List.map_nil, joinAll_append]
    simp [joinAll, String.append_assoc, String.append_empty]

/-- The slice-typedef prepend loop, written as a front concatenation. -/
theorem slice_fold_eq (l : List String) (h : String) :
    l.foldl (fun acc s => sliceWrapperLine s ++ "\n" ++ acc) h =
      joinAll (l.reverse.map (fun s => sliceWrapperLine s ++ "\n")) ++ h :=
  foldl_prepend_eq (fun s => sliceWrapperLine s ++ "\n") l h

/-- The include prepend loop, written as a front concatenation. -/
theorem include_fold_eq (l : List String) (h : String) :
    l.foldl (fun acc i => "#include <" ++ i ++ ">\n" ++ acc) h =
      joinAll (l.reverse.map (fun i => "#include <" ++ i ++ ">\n")) ++ h :=
  foldl_prepend_eq (fun i => "#include <" ++ i ++ ">\n") l h

/-- Claim C9: for every module whose walk succeeds, the final header text is
the strict concatenation, in this fixed order: the notice line, then every
include directive, then every synthesized slice wrapper typedef, then the
entity declarations (structs and opaque handles in one pass, in module
declaration order), then the function declarations (in module declaration
order); the two prepended sections always precede every entity and function
declaration even though they are discovered during the walk. -/
theorem c9_section_order (order : List String → List String)
    (m : SwiftBridgeModule) (th : String) (bk0 : Bookkeeping)
    (h : walkTypes m.types ⟨[], []⟩ = some (th, bk0)) :
    generate_c_header order m =
      some (NOTICE ++ "\n" ++
        (joinAll
          (((sortStrings (walkFuncs m.functions bk0).2.includes).reverse).map
            (fun i => "#include <" ++ i ++ ">\n")) ++
         (joinAll
           (((order (walkFuncs m.functions bk0).2.slice_types).reverse).map
             (fun s => sliceWrapperLine s ++ "\n")) ++
          (th ++ (walkFuncs m.functions bk0).1)))) := by
  simp only [generate_c_header, generate_c_header_inner, walkModule, h,
    Option.map_some']
  rw [slice_fold_eq, include_fold_eq]

/-- A module with one native opaque type and one slice-returning function. -/
def c9Module : SwiftBridgeModule :=
  ⟨[.opaqueHandle "Thing" .rust], [fooSliceFn]⟩

/-- The entity-declaration text the type walk of `c9Module` produces. -/
def c9TypesText : String :=
  "typedef struct Thing Thing;\n" ++
    "void __swift_bridge__$Thing$_free(void* self);\n"

set_option maxRecDepth 100000 in
/-- Witness for claim C9, at a module with one native opaque type and one
slice-returning function, under the identity enumeration. -/
theorem c9_section_order_witness :
    generate_c_header id c9Module =
      some (NOTICE ++ "\n" ++ "#include <stdint.h>\n" ++
        (sliceWrapperLine "uint8_t" ++ "\n") ++ c9TypesText ++
        "struct __private__FfiSlice __swift_bridge__$foo(void);\n") :=
  (c9_section_order id c9Module c9TypesText ⟨[], []⟩ (by decide)).trans
    (by decide)
